import Mathlib

set_option maxHeartbeats 1000000

noncomputable section

/-! Shallow embedding of the RRRP manipulator kinematics (robot.py) and of the
pick-and-place simulation core (simulation.py), with theorems checking the
specification's claims against these definitions. -/

/-- A 3D Cartesian point (meters). -/
@[ext]
structure Vec3 where
  x : ℝ
  y : ℝ
  z : ℝ

/-- Joint vector of the 4-DOF arm: three revolute angles and one prismatic offset. -/
@[ext]
structure JointVector where
  q1 : ℝ
  q2 : ℝ
  q3 : ℝ
  q4 : ℝ

/-- Geometry parameters of ArticulatedRRRP (link lengths, column height, lift bounds). -/
structure Geom where
  L1 : ℝ
  L2 : ℝ
  L3 : ℝ
  z_base : ℝ
  z_min : ℝ
  z_max : ℝ

/-- Default constructor arguments of ArticulatedRRRP, used by the simulation. -/
def defaultGeom : Geom :=
  { L1 := 0.30, L2 := 0.25, L3 := 0.18, z_base := 0.25, z_min := -0.15, z_max := 0.15 }

/-- np.clip(v, lo, hi) on real scalars. -/
def npClip (v lo hi : ℝ) : ℝ := min (max v lo) hi

/-- np.arctan2(y, x) on real numbers (no signed zeros). -/
def atan2 (y x : ℝ) : ℝ :=
  if 0 < x then Real.arctan (y / x)
  else if x < 0 then
    (if 0 ≤ y then Real.arctan (y / x) + Real.pi else Real.arctan (y / x) - Real.pi)
  else
    (if 0 < y then Real.pi / 2 else if y < 0 then -(Real.pi / 2) else 0)

/-- The five stacked points returned by ArticulatedRRRP.forward_kinematics. -/
structure FKChain where
  p0 : Vec3
  p1 : Vec3
  p2 : Vec3
  p3 : Vec3
  p4 : Vec3

/-- ArticulatedRRRP.forward_kinematics: base, column top, shoulder, elbow end,
end-effector (wrist with the clamped prismatic lift applied to z). -/
def forward_kinematics (g : Geom) (q : JointVector) : FKChain :=
  let t1 := q.q1
  let t2 := q.q1 + q.q2
  let t3 := q.q1 + q.q2 + q.q3
  let p0 : Vec3 := ⟨0, 0, 0⟩
  let p1 : Vec3 := ⟨0, 0, g.z_base⟩
  let p2 : Vec3 := ⟨p1.x + g.L1 * Real.cos t1, p1.y + g.L1 * Real.sin t1, p1.z⟩
  let p3 : Vec3 := ⟨p2.x + g.L2 * Real.cos t2, p2.y + g.L2 * Real.sin t2, p2.z⟩
  let wrist : Vec3 := ⟨p3.x + g.L3 * Real.cos t3, p3.y + g.L3 * Real.sin t3, p3.z⟩
  let q4_clamped := npClip q.q4 g.z_min g.z_max
  let p4 : Vec3 := ⟨wrist.x, wrist.y, g.z_base + q4_clamped⟩
  ⟨p0, p1, p2, p3, p4⟩

/-- End-effector position: last row of forward_kinematics. -/
def fkEE (g : Geom) (q : JointVector) : Vec3 := (forward_kinematics g q).p4

/-- ArticulatedRRRP.inverse_kinematics. -/
def inverse_kinematics (g : Geom) (target : Vec3) : JointVector :=
  let q4 := npClip (target.z - g.z_base) g.z_min g.z_max
  let phi := atan2 target.y target.x
  let xw0 := target.x - g.L3 * Real.cos phi
  let yw0 := target.y - g.L3 * Real.sin phi
  let r0 := Real.sqrt (xw0 ^ 2 + yw0 ^ 2)
  let max_r := g.L1 + g.L2 - 1 / 1000000
  let xw := if max_r < r0 then xw0 * (max_r / r0) else xw0
  let yw := if max_r < r0 then yw0 * (max_r / r0) else yw0
  let r2 := if max_r < r0 then max_r * max_r else xw0 ^ 2 + yw0 ^ 2
  let c2 := npClip ((r2 - g.L1 ^ 2 - g.L2 ^ 2) / (2 * g.L1 * g.L2)) (-1) 1
  let s2 := Real.sqrt (1 - c2 ^ 2)
  let q2 := atan2 s2 c2
  let k1 := g.L1 + g.L2 * c2
  let k2 := g.L2 * s2
  let q1 := atan2 yw xw - atan2 k2 k1
  let q3 := phi - q1 - q2
  ⟨q1, q2, q3, q4⟩

/-- Wrist center (xw, yw) before reach clamping, as computed in inverse_kinematics. -/
def wristCenter (g : Geom) (target : Vec3) : ℝ × ℝ :=
  let phi := atan2 target.y target.x
  (target.x - g.L3 * Real.cos phi, target.y - g.L3 * Real.sin phi)

/-- Home configuration [0, 0, 0, 0.35]. -/
def q_home : JointVector := ⟨0, 0, 0, 0.35⟩

/-- Fixed floor object positions of the simulation. -/
def floorPositions : Fin 3 → Vec3 :=
  ![⟨0.35, -0.15, 0.02⟩, ⟨0.40, 0, 0.02⟩, ⟨0.35, 0.15, 0.02⟩]

/-- Shelf level heights. -/
def shelfLevels : Fin 3 → ℝ := ![0.25, 0.45, 0.65]

/-- Matching target positions on the shelf (shelf_x = 0.40, shelf_y = 0.52). -/
def shelfPositions : Fin 3 → Vec3 := fun k => ⟨0.40, 0.52, shelfLevels k⟩

/-- Mutable simulation state: current joints, object positions, and done flags. -/
structure SimState where
  q_current : JointVector
  objects_pos : Fin 3 → Vec3
  object_done : Fin 3 → Bool

/-- Initial simulation state built by the ManipulatorSimulation constructor. -/
def initState : SimState :=
  { q_current := q_home, objects_pos := floorPositions, object_done := fun _ => false }

/-- Runtime errors of the Python loop that the embedding models explicitly. -/
inductive SimError where
  | zeroDivisionError

/-- Linear interpolation q = (1 - alpha) * q_start + alpha * q_target. -/
def lerpQ (a b : JointVector) (alpha : ℝ) : JointVector :=
  ⟨(1 - alpha) * a.q1 + alpha * b.q1, (1 - alpha) * a.q2 + alpha * b.q2,
   (1 - alpha) * a.q3 + alpha * b.q3, (1 - alpha) * a.q4 + alpha * b.q4⟩

/-- Joint vectors produced by the loop in _animate_segment, for i = 0 .. steps. -/
def segmentQs (a b : JointVector) (steps : ℤ) : List JointVector :=
  (List.range (steps + 1).toNat).map fun i : ℕ => lerpQ a b ((i : ℝ) / (steps : ℝ))

/-- One produced step: its joint vector and the object positions after the step. -/
structure StepRecord where
  q : JointVector
  objectsPos : Fin 3 → Vec3

/-- The loop body of _animate_segment: run forward kinematics on each produced
joint vector and, when carrying, move the carried object to the end-effector. -/
def runSteps (g : Geom) (carry : Option (Fin 3)) :
    List JointVector → (Fin 3 → Vec3) → List StepRecord × (Fin 3 → Vec3)
  | [], pos => ([], pos)
  | q :: rest, pos =>
      let pos1 :=
        match carry with
        | some k => Function.update pos k (fkEE g q)
        | none => pos
      let out := runSteps g carry rest pos1
      (⟨q, pos1⟩ :: out.1, out.2)

/-- Trace of one _animate_segment call starting from state s. -/
def segmentTrace (g : Geom) (s : SimState) (q_target : JointVector)
    (steps : ℤ) (carry : Option (Fin 3)) : List StepRecord :=
  (runSteps g carry (segmentQs s.q_current q_target steps) s.objects_pos).1

/-- ManipulatorSimulation._animate_segment. For steps = 0 the first loop
iteration computes alpha = 0 / 0 and raises ZeroDivisionError; for negative
steps the loop body never runs and q_current is still committed to the goal. -/
def animate_segment (g : Geom) (s : SimState) (q_target : JointVector)
    (steps : ℤ) (carry : Option (Fin 3)) : Except SimError (List StepRecord × SimState) :=
  if steps = 0 then Except.error SimError.zeroDivisionError
  else
    Except.ok (segmentTrace g s q_target steps carry,
      { q_current := q_target,
        objects_pos := (runSteps g carry (segmentQs s.q_current q_target steps) s.objects_pos).2,
        object_done := s.object_done })

/-- ManipulatorSimulation.pick_and_place: the full multi-leg cycle for one object. -/
def pick_and_place (g : Geom) (s : SimState) (obj_idx : Fin 3) :
    Except SimError (List StepRecord × SimState) :=
  if s.object_done obj_idx then Except.ok ([], s)
  else
    let pick_pos := floorPositions obj_idx
    let place_pos := shelfPositions obj_idx
    let safe_height : ℝ := 0.75
    let pre_pick : Vec3 := ⟨pick_pos.x, pick_pos.y, safe_height⟩
    let q_pre_pick := inverse_kinematics g pre_pick
    let q_pick := inverse_kinematics g pick_pos
    let pre_place : Vec3 := ⟨place_pos.x, place_pos.y, safe_height⟩
    let q_pre_place := inverse_kinematics g pre_place
    let q_place := inverse_kinematics g place_pos
    do
      let r1 ← animate_segment g s q_pre_pick 60 none
      let r2 ← animate_segment g r1.2 q_pick 40 none
      let r3 ← animate_segment g r2.2 q_pre_pick 40 (some obj_idx)
      let r4 ← animate_segment g r3.2 q_pre_place 60 (some obj_idx)
      let r5 ← animate_segment g r4.2 q_place 40 (some obj_idx)
      let s6 : SimState :=
        { r5.2 with
          objects_pos := Function.update r5.2.objects_pos obj_idx place_pos,
          object_done := Function.update r5.2.object_done obj_idx true }
      let r6 ← animate_segment g s6 q_pre_place 40 none
      Except.ok (r1.1 ++ r2.1 ++ r3.1 ++ r4.1 ++ r5.1 ++ r6.1, r6.2)

/-! ### Helper lemmas about npClip and atan2 -/

theorem npClip_eq_self (v lo hi : ℝ) (h1 : lo ≤ v) (h2 : v ≤ hi) : npClip v lo hi = v := by
  unfold npClip
  rw [max_eq_left h1, min_eq_left h2]

theorem npClip_le (v lo hi : ℝ) : npClip v lo hi ≤ hi := min_le_right _ _

theorem le_npClip (v lo hi : ℝ) (h : lo ≤ hi) : lo ≤ npClip v lo hi :=
  le_min (le_max_right _ _) h

theorem fkEE_z (g : Geom) (q : JointVector) :
    (fkEE g q).z = g.z_base + npClip q.q4 g.z_min g.z_max := rfl

theorem ik_q4 (g : Geom) (t : Vec3) :
    (inverse_kinematics g t).q4 = npClip (t.z - g.z_base) g.z_min g.z_max := rfl

theorem arctan_nonneg {x : ℝ} (h : 0 ≤ x) : 0 ≤ Real.arctan x := by
  have := Real.arctan_strictMono.monotone h
  rwa [Real.arctan_zero] at this

theorem arctan_nonpos {x : ℝ} (h : x ≤ 0) : Real.arctan x ≤ 0 := by
  have := Real.arctan_strictMono.monotone h
  rwa [Real.arctan_zero] at this

theorem sqrt_one_add_div_sq (x y : ℝ) (hx : x ≠ 0) :
    Real.sqrt (1 + (y / x) ^ 2) = Real.sqrt (x ^ 2 + y ^ 2) / |x| := by
  rw [show (1 : ℝ) + (y / x) ^ 2 = (x ^ 2 + y ^ 2) / x ^ 2 by field_simp,
    Real.sqrt_div (by positivity) (x ^ 2), Real.sqrt_sq_eq_abs]

theorem cos_atan2 (y x : ℝ) (h : 0 < x ^ 2 + y ^ 2) :
    Real.cos (atan2 y x) = x / Real.sqrt (x ^ 2 + y ^ 2) := by
  unfold atan2
  rcases lt_trichotomy 0 x with hx | hx | hx
  · rw [if_pos hx, Real.cos_arctan, sqrt_one_add_div_sq x y hx.ne', abs_of_pos hx,
      one_div_div]
  · rcases hx.symm with rfl
    have hy : y ≠ 0 := by intro h0; rw [h0] at h; norm_num at h
    rw [if_neg (lt_irrefl 0), if_neg (lt_irrefl 0)]
    rcases hy.lt_or_lt with hy1 | hy1
    · rw [if_neg (not_lt.mpr hy1.le), if_pos hy1, Real.cos_neg, Real.cos_pi_div_two,
        eq_comm, div_eq_zero_iff]
      left; ring
    · rw [if_pos hy1, Real.cos_pi_div_two, eq_comm, div_eq_zero_iff]
      left; ring
  · rw [if_neg (by linarith), if_pos hx]
    have e1 : ∀ t : ℝ, Real.cos (t + Real.pi) = -Real.cos t := by
      intro t; rw [Real.cos_add, Real.cos_pi, Real.sin_pi]; ring
    have e2 : ∀ t : ℝ, Real.cos (t - Real.pi) = -Real.cos t := by
      intro t; rw [Real.cos_sub, Real.cos_pi, Real.sin_pi]; ring
    by_cases hy : 0 ≤ y
    · rw [if_pos hy, e1, Real.cos_arctan, sqrt_one_add_div_sq x y hx.ne,
        abs_of_neg hx, one_div_div]; ring
    · rw [if_neg hy, e2, Real.cos_arctan, sqrt_one_add_div_sq x y hx.ne,
        abs_of_neg hx, one_div_div]; ring

theorem sin_atan2 (y x : ℝ) (h : 0 < x ^ 2 + y ^ 2) :
    Real.sin (atan2 y x) = y / Real.sqrt (x ^ 2 + y ^ 2) := by
  unfold atan2
  rcases lt_trichotomy 0 x with hx | hx | hx
  · rw [if_pos hx, Real.sin_arctan, sqrt_one_add_div_sq x y hx.ne', abs_of_pos hx]
    have hs : Real.sqrt (x ^ 2 + y ^ 2) ≠ 0 := by positivity
    field_simp
  · rcases hx.symm with rfl
    have hy : y ≠ 0 := by intro h0; rw [h0] at h; norm_num at h
    have hsq : Real.sqrt ((0 : ℝ) ^ 2 + y ^ 2) = |y| := by
      rw [show (0 : ℝ) ^ 2 + y ^ 2 = y ^ 2 by ring, Real.sqrt_sq_eq_abs]
    rw [if_neg (lt_irrefl 0), if_neg (lt_irrefl 0)]
    rcases hy.lt_or_lt with hy1 | hy1
    · rw [if_neg (not_lt.mpr hy1.le), if_pos hy1, Real.sin_neg, Real.sin_pi_div_two, hsq,
        abs_of_neg hy1]
      rw [div_neg, div_self hy]
    · rw [if_pos hy1, Real.sin_pi_div_two, hsq, abs_of_pos hy1, div_self hy]
  · rw [if_neg (by linarith), if_pos hx]
    have e1 : ∀ t : ℝ, Real.sin (t + Real.pi) = -Real.sin t := by
      intro t; rw [Real.sin_add, Real.cos_pi, Real.sin_pi]; ring
    have e2 : ∀ t : ℝ, Real.sin (t - Real.pi) = -Real.sin t := by
      intro t; rw [Real.sin_sub, Real.cos_pi, Real.sin_pi]; ring
    have hxne : x ≠ 0 := hx.ne
    have hs : Real.sqrt (x ^ 2 + y ^ 2) ≠ 0 := by positivity
    by_cases hy : 0 ≤ y
    · rw [if_pos hy, e1, Real.sin_arctan, sqrt_one_add_div_sq x y hxne, abs_of_neg hx]
      field_simp
      ring
    · rw [if_neg hy, e2, Real.sin_arctan, sqrt_one_add_div_sq x y hxne, abs_of_neg hx]
      field_simp
      ring

theorem atan2_nonneg (y x : ℝ) (hy : 0 ≤ y) : 0 ≤ atan2 y x := by
  unfold atan2
  have hpi := Real.pi_pos
  rcases lt_trichotomy 0 x with hx | hx | hx
  · rw [if_pos hx]
    exact arctan_nonneg (div_nonneg hy hx.le)
  · rcases hx.symm with rfl
    rw [if_neg (lt_irrefl 0), if_neg (lt_irrefl 0)]
    by_cases hy1 : 0 < y
    · rw [if_pos hy1]; linarith
    · rw [if_neg hy1, if_neg (by linarith)]
  · rw [if_neg (by linarith), if_pos hx, if_pos hy]
    have := Real.neg_pi_div_two_lt_arctan (y / x)
    linarith

theorem atan2_le_pi (y x : ℝ) (hy : 0 ≤ y) : atan2 y x ≤ Real.pi := by
  unfold atan2
  have hpi := Real.pi_pos
  rcases lt_trichotomy 0 x with hx | hx | hx
  · rw [if_pos hx]
    have := Real.arctan_lt_pi_div_two (y / x)
    linarith
  · rcases hx.symm with rfl
    rw [if_neg (lt_irrefl 0), if_neg (lt_irrefl 0)]
    by_cases hy1 : 0 < y
    · rw [if_pos hy1]; linarith
    · rw [if_neg hy1, if_neg (by linarith)]; linarith
  · rw [if_neg (by linarith), if_pos hx, if_pos hy]
    have hq : y / x ≤ 0 := div_nonpos_iff.mpr (Or.inl ⟨hy, hx.le⟩)
    have := arctan_nonpos hq
    linarith

/-! ### Exactness of the clamped two-link law-of-cosines solve -/

theorem two_link_exact (L1 L2 u v R2 c2 s2 q1 q2 : ℝ)
    (hL1 : 0 < L1) (hL2 : 0 < L2)
    (hR : u ^ 2 + v ^ 2 = R2) (h0 : 0 < R2)
    (hlo : (L1 - L2) ^ 2 ≤ R2) (hhi : R2 ≤ (L1 + L2) ^ 2)
    (hc2 : c2 = (R2 - L1 ^ 2 - L2 ^ 2) / (2 * L1 * L2))
    (hs2 : s2 = Real.sqrt (1 - c2 ^ 2))
    (hq2 : q2 = atan2 s2 c2)
    (hq1 : q1 = atan2 v u - atan2 (L2 * s2) (L1 + L2 * c2)) :
    L1 * Real.cos q1 + L2 * Real.cos (q1 + q2) = u ∧
    L1 * Real.sin q1 + L2 * Real.sin (q1 + q2) = v := by
  have hden : (0 : ℝ) < 2 * L1 * L2 := by positivity
  have hc2le : c2 ≤ 1 := by
    rw [hc2, div_le_one hden]; nlinarith
  have hc2ge : -1 ≤ c2 := by
    rw [hc2, le_div_iff₀ hden]; nlinarith
  have h1c : 0 ≤ 1 - c2 ^ 2 := by nlinarith
  have hs2sq : s2 ^ 2 = 1 - c2 ^ 2 := by rw [hs2, Real.sq_sqrt h1c]
  have hunit : c2 ^ 2 + s2 ^ 2 = 1 := by rw [hs2sq]; ring
  have hcq2 : Real.cos q2 = c2 := by
    rw [hq2, cos_atan2 s2 c2 (by rw [hunit]; norm_num), hunit, Real.sqrt_one, div_one]
  have hsq2 : Real.sin q2 = s2 := by
    rw [hq2, sin_atan2 s2 c2 (by rw [hunit]; norm_num), hunit, Real.sqrt_one, div_one]
  have hc2mul : 2 * L1 * L2 * c2 = R2 - L1 ^ 2 - L2 ^ 2 := by
    rw [hc2]; field_simp
  have hkR : (L1 + L2 * c2) ^ 2 + (L2 * s2) ^ 2 = R2 := by
    linear_combination L2 ^ 2 * hs2sq + hc2mul
  have hmul : Real.sqrt R2 * Real.sqrt R2 = R2 := Real.mul_self_sqrt h0.le
  have hca : Real.cos (atan2 v u) = u / Real.sqrt R2 := by
    rw [cos_atan2 v u (by rw [hR]; exact h0), hR]
  have hsa : Real.sin (atan2 v u) = v / Real.sqrt R2 := by
    rw [sin_atan2 v u (by rw [hR]; exact h0), hR]
  have hcb : Real.cos (atan2 (L2 * s2) (L1 + L2 * c2)) = (L1 + L2 * c2) / Real.sqrt R2 := by
    rw [cos_atan2 (L2 * s2) (L1 + L2 * c2) (by rw [hkR]; exact h0), hkR]
  have hsb : Real.sin (atan2 (L2 * s2) (L1 + L2 * c2)) = (L2 * s2) / Real.sqrt R2 := by
    rw [sin_atan2 (L2 * s2) (L1 + L2 * c2) (by rw [hkR]; exact h0), hkR]
  have hcq1 : Real.cos q1 = (u * (L1 + L2 * c2) + v * (L2 * s2)) / R2 := by
    rw [hq1, Real.cos_sub, hca, hsa, hcb, hsb, div_mul_div_comm, div_mul_div_comm, hmul,
      div_add_div_same]
  have hsq1 : Real.sin q1 = (v * (L1 + L2 * c2) - u * (L2 * s2)) / R2 := by
    rw [hq1, Real.sin_sub, hsa, hca, hcb, hsb, div_mul_div_comm, div_mul_div_comm, hmul,
      div_sub_div_same]
  have hR2ne : R2 ≠ 0 := h0.ne'
  constructor
  · rw [Real.cos_add, hcq1, hsq1, hcq2, hsq2]
    field_simp
    linear_combination u * hkR
  · rw [Real.sin_add, hcq1, hsq1, hcq2, hsq2]
    field_simp
    linear_combination v * hkR

/-! ### Sequencer lemmas -/

theorem lerpQ_one (a b : JointVector) : lerpQ a b 1 = b := by
  ext <;> simp [lerpQ]

theorem segmentQs_eq_concat (a b : JointVector) (steps : ℤ) (h : 1 ≤ steps) :
    segmentQs a b steps =
      ((List.range steps.toNat).map fun i : ℕ => lerpQ a b ((i : ℝ) / (steps : ℝ))) ++ [b] := by
  have hn : (steps + 1).toNat = steps.toNat + 1 := by omega
  have hcast : ((steps.toNat : ℝ)) = (steps : ℝ) := by
    rw [← Int.cast_natCast, Int.toNat_of_nonneg (by omega)]
  have hne : (steps : ℝ) ≠ 0 := Int.cast_ne_zero.mpr (by omega)
  rw [segmentQs, hn, List.range_succ, List.map_append, List.map_singleton, hcast,
    div_self hne, lerpQ_one]

theorem segmentQs_getLast (a b : JointVector) (steps : ℤ) (h : 1 ≤ steps) :
    (segmentQs a b steps).getLast? = some b := by
  rw [segmentQs_eq_concat a b steps h, List.getLast?_concat]

theorem runSteps_none_snd (g : Geom) (qs : List JointVector) (pos : Fin 3 → Vec3) :
    (runSteps g none qs pos).2 = pos := by
  induction qs generalizing pos with
  | nil => rfl
  | cons q rest ih => simp only [runSteps]; exact ih pos

theorem runSteps_some_snd_concat (g : Geom) (k : Fin 3) (qs : List JointVector)
    (q : JointVector) (pos : Fin 3 → Vec3) :
    (runSteps g (some k) (qs ++ [q]) pos).2 = Function.update pos k (fkEE g q) := by
  induction qs generalizing pos with
  | nil => rfl
  | cons q0 rest ih =>
      simp only [List.cons_append, runSteps, List.append_eq]
      rw [ih, Function.update_idem]

theorem runSteps_some_forall (g : Geom) (k : Fin 3) (qs : List JointVector)
    (pos : Fin 3 → Vec3) :
    List.Forall (fun rec => rec.objectsPos k = fkEE g rec.q) (runSteps g (some k) qs pos).1 := by
  induction qs generalizing pos with
  | nil => exact trivial
  | cons q rest ih =>
      simp only [runSteps, List.forall_cons]
      exact ⟨Function.update_same k (fkEE g q) pos, ih _⟩

theorem animate_segment_none_eq (g : Geom) (s : SimState) (b : JointVector) (steps : ℤ)
    (h : steps ≠ 0) :
    animate_segment g s b steps none =
      Except.ok (segmentTrace g s b steps none,
        { q_current := b, objects_pos := s.objects_pos, object_done := s.object_done }) := by
  unfold animate_segment
  rw [if_neg h, runSteps_none_snd]

theorem animate_segment_some_eq (g : Geom) (s : SimState) (b : JointVector) (steps : ℤ)
    (k : Fin 3) (h : 1 ≤ steps) :
    animate_segment g s b steps (some k) =
      Except.ok (segmentTrace g s b steps (some k),
        { q_current := b, objects_pos := Function.update s.objects_pos k (fkEE g b),
          object_done := s.object_done }) := by
  unfold animate_segment
  rw [if_neg (by omega), segmentQs_eq_concat s.q_current b steps h, runSteps_some_snd_concat]

/-! ### Shared bounds helper -/

theorem fkEE_z_bounds (q : JointVector) :
    defaultGeom.z_base + defaultGeom.z_min ≤ (fkEE defaultGeom q).z ∧
    (fkEE defaultGeom q).z ≤ defaultGeom.z_base + defaultGeom.z_max := by
  rw [fkEE_z]
  constructor
  · have := le_npClip q.q4 defaultGeom.z_min defaultGeom.z_max (by norm_num [defaultGeom])
    linarith
  · have := npClip_le q.q4 defaultGeom.z_min defaultGeom.z_max
    linarith

/-! ### Claim theorems -/

/-- C10: for every input joint vector, including ones whose prismatic component
q4 lies outside [z_min, z_max], forward kinematics saturates the prismatic
component: the returned end-effector z coordinate lies in the closed interval
[z_base + z_min, z_base + z_max], so out-of-range q4 values never propagate
into the returned pose. -/
theorem fk_prismatic_saturated (q : JointVector) :
    defaultGeom.z_base + defaultGeom.z_min ≤ (fkEE defaultGeom q).z ∧
    (fkEE defaultGeom q).z ≤ defaultGeom.z_base + defaultGeom.z_max :=
  fkEE_z_bounds q

/-- C4: for every start state, goal b and step count N ≥ 1, the last joint
vector produced by the motion sequencer equals b exactly, and the committed
current state after the leg equals b. -/
theorem sequencer_endpoint_exact (g : Geom) (s : SimState) (b : JointVector) (N : ℤ)
    (carry : Option (Fin 3)) (h : 1 ≤ N) :
    (segmentQs s.q_current b N).getLast? = some b ∧
    Except.map (fun r => r.2.q_current) (animate_segment g s b N carry) = Except.ok b := by
  refine ⟨segmentQs_getLast _ _ _ h, ?_⟩
  cases carry with
  | none => rw [animate_segment_none_eq g s b N (by omega)]; rfl
  | some k => rw [animate_segment_some_eq g s b N k h]; rfl

/-- Witness for C4 at N = 1. -/
theorem sequencer_endpoint_exact_witness :
    (1 : ℤ) ≤ 1 ∧
    ((segmentQs initState.q_current q_home 1).getLast? = some q_home ∧
     Except.map (fun r => r.2.q_current) (animate_segment defaultGeom initState q_home 1 none) =
       Except.ok q_home) :=
  ⟨le_refl 1, sequencer_endpoint_exact defaultGeom initState q_home 1 none (le_refl 1)⟩

/-- C5 counterexample: with step count -1 the sequencer signals no error at
all: it returns ok with an empty sequence and still silently commits the goal
as the new current state. -/
theorem sequencer_negative_steps_silent :
    animate_segment defaultGeom initState q_home (-1) none =
      Except.ok ([], { q_current := q_home, objects_pos := initState.objects_pos,
                       object_done := initState.object_done }) := by
  rw [animate_segment_none_eq defaultGeom initState q_home (-1) (by norm_num)]
  have h0 : ((-1 : ℤ) + 1).toNat = 0 := by norm_num
  simp [segmentTrace, segmentQs, h0, runSteps]

/-- C5 amended: a step count of zero makes the sequencer raise a
division-by-zero error (alpha = 0 / 0 in the first loop iteration); a strictly
negative step count is not an error: the loop body never runs, so the sequencer
silently produces an empty sequence and still commits the goal as the new
current state. -/
theorem sequencer_nonpositive_steps (g : Geom) (s : SimState) (b : JointVector)
    (carry : Option (Fin 3)) (steps : ℤ) (hneg : steps < 0) :
    animate_segment g s b 0 carry = Except.error SimError.zeroDivisionError ∧
    animate_segment g s b steps carry =
      Except.ok ([], { q_current := b, objects_pos := s.objects_pos,
                       object_done := s.object_done }) := by
  constructor
  · unfold animate_segment
    rw [if_pos rfl]
  · have hqs : segmentQs s.q_current b steps = [] := by
      have h0 : (steps + 1).toNat = 0 := by omega
      rw [segmentQs, h0]
      rfl
    simp only [animate_segment, segmentTrace, hqs, runSteps]
    rw [if_neg (by omega : ¬ (steps = 0))]

/-- Witness for C5 amended at steps = -1. -/
theorem sequencer_nonpositive_steps_witness :
    (-1 : ℤ) < 0 ∧
    (animate_segment defaultGeom initState q_home 0 none =
       Except.error SimError.zeroDivisionError ∧
     animate_segment defaultGeom initState q_home (-1) none =
       Except.ok ([], { q_current := q_home, objects_pos := initState.objects_pos,
                        object_done := initState.object_done })) :=
  ⟨by norm_num, sequencer_nonpositive_steps defaultGeom initState q_home none (-1) (by norm_num)⟩

/-- C6 counterexample: the sequencer emits raw linear interpolants. Sequencing
from the home configuration (whose prismatic component is 0.35) emits a first
joint vector with prismatic component 0.35, which exceeds z_max = 0.15, so the
emitted joint vector is not clamped into [z_min, z_max]. -/
theorem sequencer_emits_unclamped :
    Option.map (fun q => q.q4) (segmentQs q_home q_home 1).head? = some 0.35 ∧
    ¬ ((0.35 : ℝ) ≤ defaultGeom.z_max) := by
  constructor
  · have hr : List.range ((1 : ℤ) + 1).toNat = [0, 1] := rfl
    rw [segmentQs, hr, List.map_cons, List.map_cons, List.map_nil, List.head?_cons,
      Option.map_some']
    norm_num [lerpQ, q_home]
  · norm_num [defaultGeom]

/-- C6 amended: the joint vectors emitted by the sequencer are raw linear
interpolants whose prismatic component is not re-clamped; the clamp is instead
applied inside forward kinematics when each step is consumed, so at every
produced step the consumed end-effector height lies within
[z_base + z_min, z_base + z_max] even when start and goal prismatic values lie
outside the travel bounds. -/
theorem sequencer_steps_consumed_clamped (s : SimState) (b : JointVector) (steps : ℤ)
    (carry : Option (Fin 3)) :
    List.Forall (fun rec =>
      defaultGeom.z_base + defaultGeom.z_min ≤ (fkEE defaultGeom rec.q).z ∧
      (fkEE defaultGeom rec.q).z ≤ defaultGeom.z_base + defaultGeom.z_max)
      (segmentTrace defaultGeom s b steps carry) := by
  apply List.forall_iff_forall_mem.mpr
  intro rec _
  exact fkEE_z_bounds rec.q

/-- C9: while carrying object k, at every step produced by the sequencer the
carried object's tracked Cartesian position equals exactly the end-effector
position returned by forward kinematics for that step's joint vector. -/
theorem carry_fidelity (g : Geom) (s : SimState) (b : JointVector) (steps : ℤ) (k : Fin 3) :
    List.Forall (fun rec => rec.objectsPos k = fkEE g rec.q)
      (segmentTrace g s b steps (some k)) :=
  runSteps_some_forall g k _ _

/-- C8: a pick-and-place request for an object whose placed flag is already true
returns immediately as a no-op: empty motion sequence and the state returned
entirely unchanged. -/
theorem pick_and_place_noop_when_done (g : Geom) (s : SimState) (k : Fin 3)
    (h : s.object_done k = true) :
    pick_and_place g s k = Except.ok ([], s) := by
  unfold pick_and_place
  rw [if_pos h]

/-- A state in which every object is already placed, for the C8 witness. -/
def placedState : SimState :=
  { q_current := q_home, objects_pos := floorPositions, object_done := fun _ => true }

/-- Witness for C8 at object 1 of placedState. -/
theorem pick_and_place_noop_when_done_witness :
    placedState.object_done 1 = true ∧
    pick_and_place defaultGeom placedState 1 = Except.ok ([], placedState) :=
  ⟨rfl, pick_and_place_noop_when_done defaultGeom placedState 1 rfl⟩

/-! ### Running the pick-and-place cycle -/

theorem exceptBind_ok {ε α β : Type} (a : α) (f : α → Except ε β) :
    (Except.ok a : Except ε α) >>= f = f a := rfl

theorem exceptMap_ok {ε α β : Type} (f : α → β) (a : α) :
    Except.map f (Except.ok a : Except ε α) = Except.ok (f a) := rfl

theorem exceptMap_comp {ε α β γ : Type} (f : α → β) (g2 : β → γ) (x : Except ε α) :
    Except.map g2 (Except.map f x) = Except.map (fun a => g2 (f a)) x := by
  cases x <;> rfl

theorem pick_and_place_run (g : Geom) (s : SimState) (k : Fin 3)
    (h : s.object_done k = false) :
    Except.map (fun r => (r.2.objects_pos k, r.2.object_done k)) (pick_and_place g s k) =
      Except.ok (shelfPositions k, true) := by
  have e60n : ∀ (s1 : SimState) (b : JointVector),
      animate_segment g s1 b 60 none =
        Except.ok (segmentTrace g s1 b 60 none,
          { q_current := b, objects_pos := s1.objects_pos, object_done := s1.object_done }) :=
    fun s1 b => animate_segment_none_eq g s1 b 60 (by norm_num)
  have e40n : ∀ (s1 : SimState) (b : JointVector),
      animate_segment g s1 b 40 none =
        Except.ok (segmentTrace g s1 b 40 none,
          { q_current := b, objects_pos := s1.objects_pos, object_done := s1.object_done }) :=
    fun s1 b => animate_segment_none_eq g s1 b 40 (by norm_num)
  have e40s : ∀ (s1 : SimState) (b : JointVector),
      animate_segment g s1 b 40 (some k) =
        Except.ok (segmentTrace g s1 b 40 (some k),
          { q_current := b, objects_pos := Function.update s1.objects_pos k (fkEE g b),
            object_done := s1.object_done }) :=
    fun s1 b => animate_segment_some_eq g s1 b 40 k (by norm_num)
  have e60s : ∀ (s1 : SimState) (b : JointVector),
      animate_segment g s1 b 60 (some k) =
        Except.ok (segmentTrace g s1 b 60 (some k),
          { q_current := b, objects_pos := Function.update s1.objects_pos k (fkEE g b),
            object_done := s1.object_done }) :=
    fun s1 b => animate_segment_some_eq g s1 b 60 k (by norm_num)
  simp [pick_and_place, h, e60n, e40n, e40s, e60s, exceptBind_ok, exceptMap_ok]

/-- C1 counterexample: for object 1 (shelf slot at z = 0.45) the full cycle
leaves the object's tracked z at the literal target 0.45, while forward
kinematics on the place joint vector yields z = 0.40 (the prismatic lift
saturates at z_max), so the final tracked position is the requested target
pose and not the pose computed by forward kinematics. -/
theorem detach_uses_target_not_fk :
    Except.map (fun r => (r.2.objects_pos 1).z) (pick_and_place defaultGeom initState 1) =
      Except.ok 0.45 ∧
    (fkEE defaultGeom (inverse_kinematics defaultGeom (shelfPositions 1))).z = 0.40 ∧
    (0.45 : ℝ) ≠ 0.40 := by
  refine ⟨?_, ?_, by norm_num⟩
  · have h := pick_and_place_run defaultGeom initState 1 rfl
    have h2 := congrArg (Except.map fun p : Vec3 × Bool => p.1.z) h
    rw [exceptMap_comp, exceptMap_ok] at h2
    simpa [shelfPositions, shelfLevels] using h2
  · rw [fkEE_z, ik_q4]
    norm_num [shelfPositions, shelfLevels, npClip, defaultGeom, min_def, max_def]

/-- C1 amended: at the detach step the object's tracked position is set to the
literal requested shelf target pose place_pos, and after the full cycle the
object's final tracked position equals that literal target exactly (with the
placed flag set) rather than the end-effector pose computed by forward
kinematics on the place joint vector. -/
theorem pick_and_place_detach_literal (g : Geom) (s : SimState) (k : Fin 3)
    (h : s.object_done k = false) :
    Except.map (fun r => (r.2.objects_pos k, r.2.object_done k)) (pick_and_place g s k) =
      Except.ok (shelfPositions k, true) :=
  pick_and_place_run g s k h

/-- Witness for C1 amended at object 1 of the initial state. -/
theorem pick_and_place_detach_literal_witness :
    initState.object_done 1 = false ∧
    Except.map (fun r => (r.2.objects_pos 1, r.2.object_done 1))
      (pick_and_place defaultGeom initState 1) = Except.ok (shelfPositions 1, true) :=
  ⟨rfl, pick_and_place_detach_literal defaultGeom initState 1 rfl⟩

/-! ### Round-trip exactness inside the reachable annulus -/

theorem fk_ik_roundtrip_general (g : Geom) (t : Vec3)
    (hL1 : 0 < g.L1) (hL2 : 0 < g.L2)
    (hz1 : g.z_min ≤ t.z - g.z_base) (hz2 : t.z - g.z_base ≤ g.z_max)
    (h0 : 0 < (wristCenter g t).1 ^ 2 + (wristCenter g t).2 ^ 2)
    (hlo : (g.L1 - g.L2) ^ 2 ≤ (wristCenter g t).1 ^ 2 + (wristCenter g t).2 ^ 2)
    (hhi : (wristCenter g t).1 ^ 2 + (wristCenter g t).2 ^ 2 ≤
      (g.L1 + g.L2 - 1 / 1000000) ^ 2)
    (hmaxr : 0 ≤ g.L1 + g.L2 - 1 / 1000000) :
    fkEE g (inverse_kinematics g t) = t := by
  have hw1 : (wristCenter g t).1 = t.x - g.L3 * Real.cos (atan2 t.y t.x) := rfl
  have hw2 : (wristCenter g t).2 = t.y - g.L3 * Real.sin (atan2 t.y t.x) := rfl
  rw [hw1, hw2] at h0 hlo hhi
  set xw := t.x - g.L3 * Real.cos (atan2 t.y t.x) with hxw
  set yw := t.y - g.L3 * Real.sin (atan2 t.y t.x) with hyw
  have hsq : (g.L1 + g.L2 - 1 / 1000000) ^ 2 ≤ (g.L1 + g.L2) ^ 2 :=
    pow_le_pow_left₀ hmaxr (by linarith) 2
  have hA : xw ^ 2 + yw ^ 2 ≤ (g.L1 + g.L2) ^ 2 := le_trans hhi hsq
  have hnp : ¬ (g.L1 + g.L2 - 1 / 1000000 < Real.sqrt (xw ^ 2 + yw ^ 2)) := by
    push_neg
    calc Real.sqrt (xw ^ 2 + yw ^ 2)
        ≤ Real.sqrt ((g.L1 + g.L2 - 1 / 1000000) ^ 2) := Real.sqrt_le_sqrt hhi
      _ = g.L1 + g.L2 - 1 / 1000000 := Real.sqrt_sq hmaxr
  have hden : (0 : ℝ) < 2 * g.L1 * g.L2 := by positivity
  have hc2le : (xw ^ 2 + yw ^ 2 - g.L1 ^ 2 - g.L2 ^ 2) / (2 * g.L1 * g.L2) ≤ 1 := by
    rw [div_le_one hden]; nlinarith
  have hc2ge : (-1 : ℝ) ≤ (xw ^ 2 + yw ^ 2 - g.L1 ^ 2 - g.L2 ^ 2) / (2 * g.L1 * g.L2) := by
    rw [le_div_iff₀ hden]; nlinarith
  have hclip : npClip ((xw ^ 2 + yw ^ 2 - g.L1 ^ 2 - g.L2 ^ 2) / (2 * g.L1 * g.L2)) (-1) 1 =
      (xw ^ 2 + yw ^ 2 - g.L1 ^ 2 - g.L2 ^ 2) / (2 * g.L1 * g.L2) :=
    npClip_eq_self _ _ _ hc2ge hc2le
  have hq4 : npClip (t.z - g.z_base) g.z_min g.z_max = t.z - g.z_base :=
    npClip_eq_self _ _ _ hz1 hz2
  obtain ⟨hx2, hy2⟩ := two_link_exact g.L1 g.L2 xw yw (xw ^ 2 + yw ^ 2)
    ((xw ^ 2 + yw ^ 2 - g.L1 ^ 2 - g.L2 ^ 2) / (2 * g.L1 * g.L2))
    (Real.sqrt (1 - ((xw ^ 2 + yw ^ 2 - g.L1 ^ 2 - g.L2 ^ 2) / (2 * g.L1 * g.L2)) ^ 2))
    (atan2 yw xw -
      atan2 (g.L2 * Real.sqrt (1 - ((xw ^ 2 + yw ^ 2 - g.L1 ^ 2 - g.L2 ^ 2) /
          (2 * g.L1 * g.L2)) ^ 2))
        (g.L1 + g.L2 * ((xw ^ 2 + yw ^ 2 - g.L1 ^ 2 - g.L2 ^ 2) / (2 * g.L1 * g.L2))))
    (atan2 (Real.sqrt (1 - ((xw ^ 2 + yw ^ 2 - g.L1 ^ 2 - g.L2 ^ 2) /
        (2 * g.L1 * g.L2)) ^ 2))
      ((xw ^ 2 + yw ^ 2 - g.L1 ^ 2 - g.L2 ^ 2) / (2 * g.L1 * g.L2)))
    hL1 hL2 rfl h0 hlo hA rfl rfl rfl rfl
  simp only [inverse_kinematics, fkEE, forward_kinematics, ← hxw, ← hyw]
  rw [if_neg hnp, if_neg hnp, if_neg hnp, hclip, hq4]
  ext
  · show 0 + g.L1 * Real.cos _ + g.L2 * Real.cos _ + g.L3 * Real.cos _ = t.x
    rw [show ∀ a b c : ℝ, a + b + (c - a - b) = c from fun a b c => by ring]
    rw [hxw] at hx2
    linarith [hx2]
  · show 0 + g.L1 * Real.sin _ + g.L2 * Real.sin _ + g.L3 * Real.sin _ = t.y
    rw [show ∀ a b c : ℝ, a + b + (c - a - b) = c from fun a b c => by ring]
    rw [hyw] at hy2
    linarith [hy2]
  · show g.z_base + npClip (t.z - g.z_base) g.z_min g.z_max = t.z
    rw [hq4]
    ring

theorem atan2_zero_pos (x : ℝ) (hx : 0 < x) : atan2 0 x = 0 := by
  unfold atan2
  rw [if_pos hx, zero_div, Real.arctan_zero]

/-- C3: for every target pose strictly inside the reachable workspace (wrist
center radius within the two-link annulus and z - z_base within
[z_min, z_max]), forward kinematics applied to the inverse-kinematics solution
reproduces the target pose exactly, hence within any small tolerance. -/
theorem fk_ik_roundtrip (t : Vec3)
    (hz1 : defaultGeom.z_min ≤ t.z - defaultGeom.z_base)
    (hz2 : t.z - defaultGeom.z_base ≤ defaultGeom.z_max)
    (hlo : (defaultGeom.L1 - defaultGeom.L2) ^ 2 ≤
      (wristCenter defaultGeom t).1 ^ 2 + (wristCenter defaultGeom t).2 ^ 2)
    (hhi : (wristCenter defaultGeom t).1 ^ 2 + (wristCenter defaultGeom t).2 ^ 2 ≤
      (defaultGeom.L1 + defaultGeom.L2 - 1 / 1000000) ^ 2) :
    fkEE defaultGeom (inverse_kinematics defaultGeom t) = t :=
  fk_ik_roundtrip_general defaultGeom t (by norm_num [defaultGeom]) (by norm_num [defaultGeom])
    hz1 hz2 (lt_of_lt_of_le (by norm_num [defaultGeom]) hlo) hlo hhi
    (by norm_num [defaultGeom])

/-- Witness for C3 at the in-workspace target (0.43, 0, 0.25). -/
theorem fk_ik_roundtrip_witness :
    (defaultGeom.z_min ≤ (0.25 : ℝ) - defaultGeom.z_base ∧
     (0.25 : ℝ) - defaultGeom.z_base ≤ defaultGeom.z_max ∧
     (defaultGeom.L1 - defaultGeom.L2) ^ 2 ≤
       (wristCenter defaultGeom ⟨0.43, 0, 0.25⟩).1 ^ 2 +
         (wristCenter defaultGeom ⟨0.43, 0, 0.25⟩).2 ^ 2 ∧
     (wristCenter defaultGeom ⟨0.43, 0, 0.25⟩).1 ^ 2 +
         (wristCenter defaultGeom ⟨0.43, 0, 0.25⟩).2 ^ 2 ≤
       (defaultGeom.L1 + defaultGeom.L2 - 1 / 1000000) ^ 2) ∧
    fkEE defaultGeom (inverse_kinematics defaultGeom ⟨0.43, 0, 0.25⟩) = ⟨0.43, 0, 0.25⟩ := by
  have hwc : wristCenter defaultGeom ⟨0.43, 0, 0.25⟩ = ((0.25 : ℝ), (0 : ℝ)) := by
    simp only [wristCenter, defaultGeom]
    rw [atan2_zero_pos 0.43 (by norm_num), Real.cos_zero, Real.sin_zero]
    norm_num
  have h1 : defaultGeom.z_min ≤ (0.25 : ℝ) - defaultGeom.z_base := by norm_num [defaultGeom]
  have h2 : (0.25 : ℝ) - defaultGeom.z_base ≤ defaultGeom.z_max := by norm_num [defaultGeom]
  have h3 : (defaultGeom.L1 - defaultGeom.L2) ^ 2 ≤
      (wristCenter defaultGeom ⟨0.43, 0, 0.25⟩).1 ^ 2 +
        (wristCenter defaultGeom ⟨0.43, 0, 0.25⟩).2 ^ 2 := by
    rw [hwc]; norm_num [defaultGeom]
  have h4 : (wristCenter defaultGeom ⟨0.43, 0, 0.25⟩).1 ^ 2 +
        (wristCenter defaultGeom ⟨0.43, 0, 0.25⟩).2 ^ 2 ≤
      (defaultGeom.L1 + defaultGeom.L2 - 1 / 1000000) ^ 2 := by
    rw [hwc]; norm_num [defaultGeom]
  exact ⟨⟨h1, h2, h3, h4⟩, fk_ik_roundtrip ⟨0.43, 0, 0.25⟩ h1 h2 h3 h4⟩

/-! ### Radial projection onto the reachable disc -/

theorem ik_projection_general (g : Geom) (t : Vec3)
    (hL1 : 0 < g.L1) (hL2 : 0 < g.L2)
    (hmax : 0 < g.L1 + g.L2 - 1 / 1000000)
    (hlo2 : (g.L1 - g.L2) ^ 2 ≤ (g.L1 + g.L2 - 1 / 1000000) ^ 2)
    (hproj : g.L1 + g.L2 - 1 / 1000000 <
      Real.sqrt ((wristCenter g t).1 ^ 2 + (wristCenter g t).2 ^ 2)) :
    (forward_kinematics g (inverse_kinematics g t)).p3.x =
      (wristCenter g t).1 * ((g.L1 + g.L2 - 1 / 1000000) /
        Real.sqrt ((wristCenter g t).1 ^ 2 + (wristCenter g t).2 ^ 2)) ∧
    (forward_kinematics g (inverse_kinematics g t)).p3.y =
      (wristCenter g t).2 * ((g.L1 + g.L2 - 1 / 1000000) /
        Real.sqrt ((wristCenter g t).1 ^ 2 + (wristCenter g t).2 ^ 2)) ∧
    Real.sqrt ((forward_kinematics g (inverse_kinematics g t)).p3.x ^ 2 +
        (forward_kinematics g (inverse_kinematics g t)).p3.y ^ 2) =
      g.L1 + g.L2 - 1 / 1000000 := by
  have hw1 : (wristCenter g t).1 = t.x - g.L3 * Real.cos (atan2 t.y t.x) := rfl
  have hw2 : (wristCenter g t).2 = t.y - g.L3 * Real.sin (atan2 t.y t.x) := rfl
  rw [hw1, hw2] at hproj ⊢
  set xw := t.x - g.L3 * Real.cos (atan2 t.y t.x) with hxw
  set yw := t.y - g.L3 * Real.sin (atan2 t.y t.x) with hyw
  set m := g.L1 + g.L2 - 1 / 1000000 with hm
  set r0 := Real.sqrt (xw ^ 2 + yw ^ 2) with hr0
  have hr0pos : 0 < r0 := lt_trans hmax hproj
  have hr0ne : r0 ≠ 0 := hr0pos.ne'
  have hr0sq : r0 ^ 2 = xw ^ 2 + yw ^ 2 := Real.sq_sqrt (by positivity)
  have hR : (xw * (m / r0)) ^ 2 + (yw * (m / r0)) ^ 2 = m * m := by
    have h1 : (xw * (m / r0)) ^ 2 + (yw * (m / r0)) ^ 2 =
        (xw ^ 2 + yw ^ 2) * (m ^ 2 / r0 ^ 2) := by ring
    rw [h1, ← hr0sq, mul_comm, div_mul_cancel₀ _ (pow_ne_zero 2 hr0ne), pow_two]
  have h0 : (0 : ℝ) < m * m := mul_pos hmax hmax
  have hmle : m ≤ g.L1 + g.L2 := by rw [hm]; linarith
  have hR2hi : m * m ≤ (g.L1 + g.L2) ^ 2 := by
    rw [pow_two]
    exact mul_le_mul hmle hmle hmax.le (le_trans hmax.le hmle)
  have hR2lo : (g.L1 - g.L2) ^ 2 ≤ m * m := by
    rw [← pow_two]
    exact hlo2
  have hden : (0 : ℝ) < 2 * g.L1 * g.L2 := by positivity
  have hc2le : (m * m - g.L1 ^ 2 - g.L2 ^ 2) / (2 * g.L1 * g.L2) ≤ 1 := by
    rw [div_le_one hden]; nlinarith [hR2hi]
  have hc2ge : (-1 : ℝ) ≤ (m * m - g.L1 ^ 2 - g.L2 ^ 2) / (2 * g.L1 * g.L2) := by
    rw [le_div_iff₀ hden]; nlinarith [hR2lo]
  have hclip : npClip ((m * m - g.L1 ^ 2 - g.L2 ^ 2) / (2 * g.L1 * g.L2)) (-1) 1 =
      (m * m - g.L1 ^ 2 - g.L2 ^ 2) / (2 * g.L1 * g.L2) :=
    npClip_eq_self _ _ _ hc2ge hc2le
  obtain ⟨hx2, hy2⟩ := two_link_exact g.L1 g.L2 (xw * (m / r0)) (yw * (m / r0)) (m * m)
    ((m * m - g.L1 ^ 2 - g.L2 ^ 2) / (2 * g.L1 * g.L2))
    (Real.sqrt (1 - ((m * m - g.L1 ^ 2 - g.L2 ^ 2) / (2 * g.L1 * g.L2)) ^ 2))
    (atan2 (yw * (m / r0)) (xw * (m / r0)) -
      atan2 (g.L2 * Real.sqrt (1 - ((m * m - g.L1 ^ 2 - g.L2 ^ 2) /
          (2 * g.L1 * g.L2)) ^ 2))
        (g.L1 + g.L2 * ((m * m - g.L1 ^ 2 - g.L2 ^ 2) / (2 * g.L1 * g.L2))))
    (atan2 (Real.sqrt (1 - ((m * m - g.L1 ^ 2 - g.L2 ^ 2) / (2 * g.L1 * g.L2)) ^ 2))
      ((m * m - g.L1 ^ 2 - g.L2 ^ 2) / (2 * g.L1 * g.L2)))
    hL1 hL2 hR h0 hR2lo hR2hi rfl rfl rfl rfl
  simp only [inverse_kinematics, forward_kinematics, ← hxw, ← hyw, ← hm, ← hr0]
  rw [if_pos hproj, if_pos hproj, if_pos hproj, hclip]
  have hfx : 0 + g.L1 * Real.cos (atan2 (yw * (m / r0)) (xw * (m / r0)) -
      atan2 (g.L2 * Real.sqrt (1 - ((m * m - g.L1 ^ 2 - g.L2 ^ 2) /
          (2 * g.L1 * g.L2)) ^ 2))
        (g.L1 + g.L2 * ((m * m - g.L1 ^ 2 - g.L2 ^ 2) / (2 * g.L1 * g.L2)))) +
      g.L2 * Real.cos (atan2 (yw * (m / r0)) (xw * (m / r0)) -
        atan2 (g.L2 * Real.sqrt (1 - ((m * m - g.L1 ^ 2 - g.L2 ^ 2) /
            (2 * g.L1 * g.L2)) ^ 2))
          (g.L1 + g.L2 * ((m * m - g.L1 ^ 2 - g.L2 ^ 2) / (2 * g.L1 * g.L2))) +
        atan2 (Real.sqrt (1 - ((m * m - g.L1 ^ 2 - g.L2 ^ 2) / (2 * g.L1 * g.L2)) ^ 2))
          ((m * m - g.L1 ^ 2 - g.L2 ^ 2) / (2 * g.L1 * g.L2))) = xw * (m / r0) := by
    linarith [hx2]
  have hfy : 0 + g.L1 * Real.sin (atan2 (yw * (m / r0)) (xw * (m / r0)) -
      atan2 (g.L2 * Real.sqrt (1 - ((m * m - g.L1 ^ 2 - g.L2 ^ 2) /
          (2 * g.L1 * g.L2)) ^ 2))
        (g.L1 + g.L2 * ((m * m - g.L1 ^ 2 - g.L2 ^ 2) / (2 * g.L1 * g.L2)))) +
      g.L2 * Real.sin (atan2 (yw * (m / r0)) (xw * (m / r0)) -
        atan2 (g.L2 * Real.sqrt (1 - ((m * m - g.L1 ^ 2 - g.L2 ^ 2) /
            (2 * g.L1 * g.L2)) ^ 2))
          (g.L1 + g.L2 * ((m * m - g.L1 ^ 2 - g.L2 ^ 2) / (2 * g.L1 * g.L2))) +
        atan2 (Real.sqrt (1 - ((m * m - g.L1 ^ 2 - g.L2 ^ 2) / (2 * g.L1 * g.L2)) ^ 2))
          ((m * m - g.L1 ^ 2 - g.L2 ^ 2) / (2 * g.L1 * g.L2))) = yw * (m / r0) := by
    linarith [hy2]
  refine ⟨hfx, hfy, ?_⟩
  rw [hfx, hfy, hR, Real.sqrt_mul_self hmax.le]

/-- C7: for every target whose wrist-center radius exceeds the reachable
radius, inverse kinematics radially scales the wrist center so that the
projected point lies exactly at radius L1 + L2 - epsilon, and the wrist-center
point of forward kinematics on the resulting joint vector has exactly that
projected radius, not the original out-of-reach radius. -/
theorem ik_projection_boundary (t : Vec3)
    (hproj : defaultGeom.L1 + defaultGeom.L2 - 1 / 1000000 <
      Real.sqrt ((wristCenter defaultGeom t).1 ^ 2 + (wristCenter defaultGeom t).2 ^ 2)) :
    (forward_kinematics defaultGeom (inverse_kinematics defaultGeom t)).p3.x =
      (wristCenter defaultGeom t).1 * ((defaultGeom.L1 + defaultGeom.L2 - 1 / 1000000) /
        Real.sqrt ((wristCenter defaultGeom t).1 ^ 2 + (wristCenter defaultGeom t).2 ^ 2)) ∧
    (forward_kinematics defaultGeom (inverse_kinematics defaultGeom t)).p3.y =
      (wristCenter defaultGeom t).2 * ((defaultGeom.L1 + defaultGeom.L2 - 1 / 1000000) /
        Real.sqrt ((wristCenter defaultGeom t).1 ^ 2 + (wristCenter defaultGeom t).2 ^ 2)) ∧
    Real.sqrt ((forward_kinematics defaultGeom (inverse_kinematics defaultGeom t)).p3.x ^ 2 +
        (forward_kinematics defaultGeom (inverse_kinematics defaultGeom t)).p3.y ^ 2) =
      defaultGeom.L1 + defaultGeom.L2 - 1 / 1000000 ∧
    Real.sqrt ((forward_kinematics defaultGeom (inverse_kinematics defaultGeom t)).p3.x ^ 2 +
        (forward_kinematics defaultGeom (inverse_kinematics defaultGeom t)).p3.y ^ 2) ≠
      Real.sqrt ((wristCenter defaultGeom t).1 ^ 2 + (wristCenter defaultGeom t).2 ^ 2) := by
  obtain ⟨h1, h2, h3⟩ := ik_projection_general defaultGeom t (by norm_num [defaultGeom])
    (by norm_num [defaultGeom]) (by norm_num [defaultGeom]) (by norm_num [defaultGeom]) hproj
  refine ⟨h1, h2, h3, ?_⟩
  rw [h3]
  exact ne_of_lt hproj

/-- Witness for C7 at the out-of-reach target (1.18, 0, 0.25). -/
theorem ik_projection_boundary_witness :
    (defaultGeom.L1 + defaultGeom.L2 - 1 / 1000000 <
      Real.sqrt ((wristCenter defaultGeom ⟨1.18, 0, 0.25⟩).1 ^ 2 +
        (wristCenter defaultGeom ⟨1.18, 0, 0.25⟩).2 ^ 2)) ∧
    Real.sqrt
        ((forward_kinematics defaultGeom
            (inverse_kinematics defaultGeom ⟨1.18, 0, 0.25⟩)).p3.x ^ 2 +
          (forward_kinematics defaultGeom
            (inverse_kinematics defaultGeom ⟨1.18, 0, 0.25⟩)).p3.y ^ 2) =
      defaultGeom.L1 + defaultGeom.L2 - 1 / 1000000 := by
  have hwc : wristCenter defaultGeom ⟨1.18, 0, 0.25⟩ = ((1 : ℝ), (0 : ℝ)) := by
    simp only [wristCenter, defaultGeom]
    rw [atan2_zero_pos 1.18 (by norm_num), Real.cos_zero, Real.sin_zero]
    norm_num
  have hproj : defaultGeom.L1 + defaultGeom.L2 - 1 / 1000000 <
      Real.sqrt ((wristCenter defaultGeom ⟨1.18, 0, 0.25⟩).1 ^ 2 +
        (wristCenter defaultGeom ⟨1.18, 0, 0.25⟩).2 ^ 2) := by
    rw [hwc]
    rw [show ((1 : ℝ), (0 : ℝ)).1 ^ 2 + ((1 : ℝ), (0 : ℝ)).2 ^ 2 = 1 by norm_num,
      Real.sqrt_one]
    norm_num [defaultGeom]
  exact ⟨hproj, (ik_projection_boundary ⟨1.18, 0, 0.25⟩ hproj).2.2.1⟩

/-! ### Angle wrapping -/

/-- C2 amended: the elbow angle q2 returned by inverse kinematics always lies
in [0, pi] (inside (-pi, pi]); the base and wrist angles q1 and q3 are returned
unwrapped and can fall outside (-pi, pi]. -/
theorem ik_q2_in_range (g : Geom) (t : Vec3) :
    0 ≤ (inverse_kinematics g t).q2 ∧ (inverse_kinematics g t).q2 ≤ Real.pi := by
  simp only [inverse_kinematics]
  exact ⟨atan2_nonneg _ _ (Real.sqrt_nonneg _), atan2_le_pi _ _ (Real.sqrt_nonneg _)⟩

/-- C2 counterexample: at the target (0.18 - sqrt(0.0085), 0, 0.25) the wrist
angle q3 returned by inverse kinematics equals
arctan(7/6) + arctan(7/24) - 2 pi < -pi, so it does not lie in (-pi, pi]. -/
theorem ik_angle_not_wrapped :
    ¬ (-Real.pi <
        (inverse_kinematics defaultGeom ⟨0.18 - Real.sqrt 0.0085, 0, 0.25⟩).q3 ∧
       (inverse_kinematics defaultGeom ⟨0.18 - Real.sqrt 0.0085, 0, 0.25⟩).q3 ≤ Real.pi) := by
  have hs0 : (0 : ℝ) < Real.sqrt 0.0085 := Real.sqrt_pos.mpr (by norm_num)
  have hslt : Real.sqrt 0.0085 < 0.18 := by
    rw [Real.sqrt_lt' (by norm_num : (0 : ℝ) < 0.18)]
    norm_num
  have hx0 : (0 : ℝ) < 0.18 - Real.sqrt 0.0085 := by linarith
  have hphi : atan2 (0 : ℝ) (0.18 - Real.sqrt 0.0085) = 0 := atan2_zero_pos _ hx0
  have hxw0 : (0.18 : ℝ) - Real.sqrt 0.0085 - 0.18 = -Real.sqrt 0.0085 := by ring
  have hsq : ((-Real.sqrt 0.0085) ^ 2 + (0 : ℝ) ^ 2) = 0.0085 := by
    rw [show ((-Real.sqrt 0.0085) ^ 2 + (0 : ℝ) ^ 2) = Real.sqrt 0.0085 ^ 2 by ring,
      Real.sq_sqrt (by norm_num : (0 : ℝ) ≤ 0.0085)]
  have hbr : ¬ ((0.30 : ℝ) + 0.25 - 1 / 1000000 < Real.sqrt 0.0085) := by
    push_neg
    linarith
  have hc2v : ((0.0085 : ℝ) - 0.30 ^ 2 - 0.25 ^ 2) / (2 * 0.30 * 0.25) = -0.96 := by norm_num
  have hclip : npClip (-0.96 : ℝ) (-1) 1 = -0.96 :=
    npClip_eq_self _ _ _ (by norm_num) (by norm_num)
  have hs2v : Real.sqrt (1 - (-0.96 : ℝ) ^ 2) = 0.28 := by
    rw [show (1 : ℝ) - (-0.96 : ℝ) ^ 2 = 0.28 ^ 2 by norm_num,
      Real.sqrt_sq (by norm_num : (0 : ℝ) ≤ 0.28)]
  have hq2v : atan2 (0.28 : ℝ) (-0.96) = Real.pi - Real.arctan (7 / 24) := by
    unfold atan2
    rw [if_neg (by norm_num), if_pos (by norm_num : (-0.96 : ℝ) < 0),
      if_pos (by norm_num : (0 : ℝ) ≤ 0.28),
      show (0.28 : ℝ) / (-0.96) = -(7 / 24) by norm_num, Real.arctan_neg]
    ring
  have hk1 : (0.30 : ℝ) + 0.25 * (-0.96) = 0.06 := by norm_num
  have hk2 : (0.25 : ℝ) * 0.28 = 0.07 := by norm_num
  have hbeta : atan2 (0.07 : ℝ) 0.06 = Real.arctan (7 / 6) := by
    unfold atan2
    rw [if_pos (by norm_num : (0 : ℝ) < 0.06),
      show (0.07 : ℝ) / 0.06 = 7 / 6 by norm_num]
  have halpha : atan2 (0 : ℝ) (-Real.sqrt 0.0085) = Real.pi := by
    unfold atan2
    rw [if_neg (by linarith), if_pos (by linarith : -Real.sqrt 0.0085 < 0),
      if_pos (le_refl (0 : ℝ)), zero_div, Real.arctan_zero, zero_add]
  have hq3 : (inverse_kinematics defaultGeom ⟨0.18 - Real.sqrt 0.0085, 0, 0.25⟩).q3 =
      Real.arctan (7 / 6) + Real.arctan (7 / 24) - 2 * Real.pi := by
    simp only [inverse_kinematics, defaultGeom, hphi, Real.cos_zero, Real.sin_zero,
      mul_one, mul_zero, sub_zero, hxw0, hsq]
    rw [if_neg hbr, if_neg hbr, if_neg hbr]
    simp only [hc2v, hclip, hs2v, hq2v, hk1, hk2, hbeta, halpha]
    ring
  rw [hq3]
  intro hcon
  have h1 := Real.arctan_lt_pi_div_two (7 / 6 : ℝ)
  have h2 := Real.arctan_lt_pi_div_two (7 / 24 : ℝ)
  linarith [hcon.1]
